import Mathlib

/-!
Verification of the synthetic-data generator of the islamic-finance-analytics
repository (`islamic_finance_db.py`).  Dates are modelled as integer day
numbers, money amounts as exact rationals, and every random draw of the Python
code (`random.random()`, `random.uniform(a, b)`, `random.randint(a, b)`,
`random.choices`) becomes an explicit oracle argument, constrained by the
documented range of the corresponding draw.  `datetime.now().date()` becomes an
explicit `now : ℤ` argument.
-/

namespace IslamicFinance

/-- Loan status as stored in the `business_loans` table. -/
inductive LoanStatus where
  | Active
  | PaidOff
  | Defaulted
deriving DecidableEq, Repr

/-- Payment status drawn for each loan payment by `random.choices`. -/
inductive PayStatus where
  | OnTime
  | Late
  | Missed
deriving DecidableEq, Repr

/-- Round-half-even to an integer, modelling Python's builtin `round`. -/
def roundHalfEven (q : ℚ) : ℤ :=
  if q - ⌊q⌋ < 1/2 then ⌊q⌋
  else if 1/2 < q - ⌊q⌋ then ⌊q⌋ + 1
  else if 2 ∣ ⌊q⌋ then ⌊q⌋ else ⌊q⌋ + 1

/-- Model of Python's `round(x, 2)` used on every stored money amount. -/
def round2 (q : ℚ) : ℚ := (roundHalfEven (q * 100) : ℚ) / 100

/-- Python's `int(a / b)` for integers `a` and positive `b`: truncation toward
zero of the exact quotient. -/
def pyIntDiv (a b : ℤ) : ℤ := if 0 ≤ a then a / b else -((-a) / b)

/-- Loan-amount `randint` bounds (inclusive) per credit-score tier, from
`generate_business_loans`. -/
def loanAmountRange (credit_score : ℤ) : ℤ × ℤ :=
  if 750 ≤ credit_score then (100000, 500000)
  else if 650 ≤ credit_score then (50000, 250000)
  else (10000, 100000)

/-- Status and stored (2-decimal rounded) outstanding balance of a generated
business loan, from `generate_business_loans`.  `defaultDraw` is the
`random.random()` draw compared against `DEFAULT_RATE = 0.05`; `recoveryFrac`
is the `random.uniform(0.3, 0.9)` draw. -/
def loanStatusBalance (loan_amount : ℤ) (disbursement_date maturity_date now : ℤ)
    (defaultDraw recoveryFrac : ℚ) : LoanStatus × ℚ :=
  if defaultDraw < 1/20 then
    (.Defaulted, round2 ((loan_amount : ℚ) * recoveryFrac))
  else if maturity_date < now then
    (.PaidOff, round2 0)
  else
    let days_elapsed : ℤ := now - disbursement_date
    let total_days : ℤ := maturity_date - disbursement_date
    if 0 < total_days then
      let progress : ℚ := min ((days_elapsed : ℚ) / (total_days : ℚ)) 1
      (.Active, round2 ((loan_amount : ℚ) * (1 - progress * (7/10))))
    else
      (.Active, round2 (loan_amount : ℚ))

/-- Period count of the amortization schedule from `generate_loan_payments`:
`max(1, int(days / 30))`. -/
def monthsOf (total_days : ℤ) : ℤ := max 1 (pyIntDiv total_days 30)

/-- Per-period installment from `generate_loan_payments`:
`(loan_amount + loan_amount * profit_rate * (months / 12)) / months`. -/
def monthlyPayment (loan_amount profit_rate : ℚ) (months : ℤ) : ℚ :=
  (loan_amount + loan_amount * profit_rate * ((months : ℚ) / 12)) / (months : ℚ)

/-- Per-payment oracle: the categorical status draw and the
`random.uniform(0.5, 0.9)` fraction used in the Late branch. -/
structure PayDraw where
  status : PayStatus
  lateFrac : ℚ
deriving DecidableEq, Repr

/-- Realized `(actual_payment, actual_principal, actual_profit)` amounts for
one payment before rounding, from the status branches of
`generate_loan_payments`. -/
def actualTriple (profit_rate monthly_payment remaining : ℚ) (d : PayDraw) : ℚ × ℚ × ℚ :=
  let profit_portion := remaining * (profit_rate / 12)
  let principal_portion := monthly_payment - profit_portion
  match d.status with
  | .Missed => (0, 0, 0)
  | .Late =>
      let actual_payment := monthly_payment * d.lateFrac
      (actual_payment,
       actual_payment * (principal_portion / monthly_payment),
       actual_payment * (profit_portion / monthly_payment))
  | .OnTime => (monthly_payment, principal_portion, profit_portion)

/-- A row of the `loan_payments` table. -/
structure Payment where
  payment_date : ℤ
  payment_amount : ℚ
  principal_amount : ℚ
  profit_amount : ℚ
  remaining_balance : ℚ
  payment_status : PayStatus
deriving DecidableEq, Repr

/-- Payment-history loop body for one loan, from `generate_loan_payments`.
`fuel` is the drawn `num_loan_payments`, `idx` the 0-based `payment_num`,
`remaining` the running raw balance, and `b` the residual global payment
budget (the `len(all_payments) >= num_payments` break, checked after each
append). -/
def genPaymentsAux (profit_rate monthly : ℚ) (disb now : ℤ) (draws : ℕ → PayDraw) :
    ℕ → ℕ → ℚ → ℕ → List Payment
  | 0, _, _, _ => []
  | fuel+1, idx, remaining, b =>
    let pdate := disb + 30 * ((idx : ℤ) + 1)
    if now < pdate then []
    else
      let t := actualTriple profit_rate monthly remaining (draws idx)
      let rem' := max 0 (remaining - t.2.1)
      { payment_date := pdate
        payment_amount := round2 t.1
        principal_amount := round2 t.2.1
        profit_amount := round2 t.2.2
        remaining_balance := round2 rem'
        payment_status := (draws idx).status } ::
        (if b ≤ 1 then []
         else genPaymentsAux profit_rate monthly disb now draws fuel (idx+1) rem' (b-1))

/-- Raw running remaining balance just after the first `i` payments when the
loop starts at payment index `idx` with balance `r`: the update
`remaining = max(0, remaining - actual_principal)` of `generate_loan_payments`,
before the 2-decimal rounding applied to the stored field. -/
def remRaw (profit_rate monthly : ℚ) (draws : ℕ → PayDraw) : ℕ → ℚ → ℕ → ℚ
  | _, r, 0 => r
  | idx, r, i+1 =>
      remRaw profit_rate monthly draws (idx+1)
        (max 0 (r - (actualTriple profit_rate monthly r (draws idx)).2.1)) i

/-- `randint` bounds of the defaulted payment count:
`(int(months * 0.3), int(months * 0.7))`. -/
def defaultedCountBounds (months : ℤ) : ℤ × ℤ :=
  (pyIntDiv (3 * months) 10, pyIntDiv (7 * months) 10)

/-- Drawn number of payment-loop iterations per loan status, from
`generate_loan_payments`; `defaultedDraw` is the `randint` draw of the
Defaulted branch. -/
def numLoanPayments (status : LoanStatus) (months defaultedDraw now disb : ℤ) : ℤ :=
  match status with
  | .PaidOff => months
  | .Defaulted => defaultedDraw
  | .Active => min (pyIntDiv (now - disb) 30) months

/-- A row of the `profit_distributions` table. -/
structure Distribution where
  distribution_date : ℤ
  amount : ℚ
  period_start : ℤ
  period_end : ℤ
deriving DecidableEq, Repr

/-- Quarters elapsed since purchase, from `generate_profit_distributions`:
`int(days / 90)`. -/
def quartersSince (purchase_date now : ℤ) : ℤ := pyIntDiv (now - purchase_date) 90

/-- Quarterly distribution loop body for one sampled purchase, from
`generate_profit_distributions`.  `fuel` counts the remaining quarter
iterations, `q` is the current quarter index, `b` the residual global
distribution budget, and `u` the `random.uniform(0.9, 1.1)` oracle. -/
def genDistsAux (purchase_date now : ℤ) (amount_invested rate : ℚ) (u : ℕ → ℚ) :
    ℕ → ℕ → ℕ → List Distribution
  | 0, _, _ => []
  | fuel+1, q, b =>
    let ps := purchase_date + 90 * (q : ℤ)
    let pe := ps + 90
    if now < pe then []
    else
      { distribution_date := pe
        amount := round2 (amount_invested * rate / 4 * u q)
        period_start := ps
        period_end := pe } ::
        (if b ≤ 1 then []
         else genDistsAux purchase_date now amount_invested rate u fuel (q+1) (b-1))

/-- Distribution generation for one sampled purchase:
`for quarter in range(min(quarters_since_purchase, 8))`. -/
def genDists (purchase_date now : ℤ) (amount_invested rate : ℚ) (u : ℕ → ℚ) (b : ℕ) :
    List Distribution :=
  genDistsAux purchase_date now amount_invested rate u
    (min (quartersSince purchase_date now) 8).toNat 0 b

/-- A generated `sukuk_purchases` row (the fields the unit-count logic
touches).  `generate_sukuk_purchases` computes `units = amount / 1000`,
independent of the instrument's `minimum_investment`. -/
structure Purchase where
  amount : ℤ
  units : ℚ
deriving DecidableEq, Repr

/-- Purchase construction from `generate_sukuk_purchases`; the
`minimum_investment` argument feeds only the amount draw, never the unit
count. -/
def mkPurchase (minimum_investment : ℤ) (amount : ℤ) : Purchase :=
  { amount := amount, units := (amount : ℚ) / 1000 }

/-- The loan-dependent slice of one generation run: the loan record plus its
payment history, as a function of the seed-derived draws and of the ambient
current date `now`. -/
def loanSlice (loan_amount disb maturity : ℤ) (defaultDraw recoveryFrac profit_rate : ℚ)
    (defaultedDraw : ℤ) (draws : ℕ → PayDraw) (b : ℕ) (now : ℤ) :
    (LoanStatus × ℚ) × List Payment :=
  let sb := loanStatusBalance loan_amount disb maturity now defaultDraw recoveryFrac
  let months := monthsOf (maturity - disb)
  let monthly := monthlyPayment (loan_amount : ℚ) profit_rate months
  let fuel := (numLoanPayments sb.1 months defaultedDraw now disb).toNat
  (sb, genPaymentsAux profit_rate monthly disb now draws fuel 0 (loan_amount : ℚ) b)

/-! ## Rounding lemmas -/

lemma roundHalfEven_le (q : ℚ) : (roundHalfEven q : ℚ) ≤ q + 1/2 := by
  unfold roundHalfEven
  have h1 : ((⌊q⌋ : ℤ) : ℚ) ≤ q := Int.floor_le q
  have h2 : q < (⌊q⌋ : ℚ) + 1 := Int.lt_floor_add_one q
  split_ifs <;> push_cast <;> linarith

lemma le_roundHalfEven (q : ℚ) : q - 1/2 ≤ (roundHalfEven q : ℚ) := by
  unfold roundHalfEven
  have h1 : ((⌊q⌋ : ℤ) : ℚ) ≤ q := Int.floor_le q
  have h2 : q < (⌊q⌋ : ℚ) + 1 := Int.lt_floor_add_one q
  split_ifs <;> push_cast <;> linarith

lemma roundHalfEven_intCast (n : ℤ) : roundHalfEven (n : ℚ) = n := by
  unfold roundHalfEven
  rw [Int.floor_intCast]
  norm_num

lemma roundHalfEven_mono {a b : ℚ} (h : a ≤ b) : roundHalfEven a ≤ roundHalfEven b := by
  have hf : ⌊a⌋ ≤ ⌊b⌋ := Int.floor_le_floor h
  rcases lt_or_eq_of_le hf with hlt | heq
  · unfold roundHalfEven
    split_ifs <;> omega
  · have hfr : a - (⌊a⌋ : ℚ) ≤ b - (⌊b⌋ : ℚ) := by
      rw [← heq]; linarith
    unfold roundHalfEven
    rw [← heq] at hfr ⊢
    split_ifs <;> first | omega | linarith

lemma round2_le (q : ℚ) : round2 q ≤ q + 1/200 := by
  have := roundHalfEven_le (q * 100)
  unfold round2
  linarith

lemma le_round2 (q : ℚ) : q - 1/200 ≤ round2 q := by
  have := le_roundHalfEven (q * 100)
  unfold round2
  linarith

lemma round2_mono {a b : ℚ} (h : a ≤ b) : round2 a ≤ round2 b := by
  have h100 : a * 100 ≤ b * 100 := by linarith
  have := roundHalfEven_mono h100
  have hc : ((roundHalfEven (a * 100) : ℤ) : ℚ) ≤ ((roundHalfEven (b * 100) : ℤ) : ℚ) :=
    Int.cast_le.mpr this
  unfold round2
  linarith

lemma round2_intCast (n : ℤ) : round2 (n : ℚ) = n := by
  unfold round2
  rw [show ((n : ℚ) * 100) = ((n * 100 : ℤ) : ℚ) by push_cast; ring, roundHalfEven_intCast]
  push_cast
  ring

lemma round2_zero : round2 0 = 0 := by
  have := round2_intCast 0
  simpa using this

lemma round2_nonneg {q : ℚ} (h : 0 ≤ q) : 0 ≤ round2 q := by
  have := round2_mono h
  rwa [round2_zero] at this

/-! ## Integer-division lemmas -/

lemma one_le_monthsOf (d : ℤ) : 1 ≤ monthsOf d := le_max_left _ _

lemma monthsOf_cast_ne_zero (d : ℤ) : ((monthsOf d : ℤ) : ℚ) ≠ 0 := by
  have h := one_le_monthsOf d
  have : (1 : ℚ) ≤ ((monthsOf d : ℤ) : ℚ) := by exact_mod_cast h
  linarith

lemma quartersSince_eq_ten {p now : ℤ} (h : quartersSince p now = 10) :
    900 ≤ now - p ∧ now - p ≤ 989 := by
  unfold quartersSince pyIntDiv at h
  split_ifs at h with h0
  · omega
  · exfalso
    have hnn : 0 ≤ (-(now - p)) / 90 := Int.ediv_nonneg (by omega) (by norm_num)
    omega

/-! ## Payment-loop lemmas -/

lemma actualPrincipal_nonneg (profit_rate monthly r : ℚ) (d : PayDraw)
    (hm0 : 0 ≤ monthly) (hpp : r * (profit_rate / 12) ≤ monthly)
    (hu : d.status = .Late → 0 ≤ d.lateFrac) :
    0 ≤ (actualTriple profit_rate monthly r d).2.1 := by
  rcases d with ⟨st, u⟩
  cases st with
  | OnTime => simp only [actualTriple]; linarith
  | Late =>
      simp only [actualTriple]
      exact mul_nonneg (mul_nonneg hm0 (hu rfl)) (div_nonneg (by linarith) hm0)
  | Missed => simp [actualTriple]

lemma remRaw_bounds (profit_rate monthly P : ℚ) (draws : ℕ → PayDraw)
    (hr : 0 ≤ profit_rate) (hm0 : 0 ≤ monthly) (hPP : P * (profit_rate / 12) ≤ monthly)
    (hu : ∀ i, (draws i).status = .Late → 0 ≤ (draws i).lateFrac) :
    ∀ i idx r, 0 ≤ r → r ≤ P →
      (0 ≤ remRaw profit_rate monthly draws idx r i
        ∧ remRaw profit_rate monthly draws idx r i ≤ P)
      ∧ remRaw profit_rate monthly draws idx r (i+1)
          ≤ remRaw profit_rate monthly draws idx r i := by
  intro i
  induction i with
  | zero =>
      intro idx r h0 hP
      have hap : 0 ≤ (actualTriple profit_rate monthly r (draws idx)).2.1 := by
        refine actualPrincipal_nonneg _ _ _ _ hm0 ?_ (hu idx)
        have : r * (profit_rate / 12) ≤ P * (profit_rate / 12) :=
          mul_le_mul_of_nonneg_right hP (by positivity)
        linarith
      refine ⟨⟨h0, hP⟩, ?_⟩
      simp only [remRaw]
      exact max_le (by linarith) (by linarith)
  | succ n ih =>
      intro idx r h0 hP
      have hap : 0 ≤ (actualTriple profit_rate monthly r (draws idx)).2.1 := by
        refine actualPrincipal_nonneg _ _ _ _ hm0 ?_ (hu idx)
        have : r * (profit_rate / 12) ≤ P * (profit_rate / 12) :=
          mul_le_mul_of_nonneg_right hP (by positivity)
        linarith
      have h0' : 0 ≤ max 0 (r - (actualTriple profit_rate monthly r (draws idx)).2.1) :=
        le_max_left _ _
      have hP' : max 0 (r - (actualTriple profit_rate monthly r (draws idx)).2.1) ≤ P :=
        max_le (by linarith) (by linarith)
      constructor
      · simp only [remRaw]
        exact (ih (idx+1) _ h0' hP').1
      · show remRaw profit_rate monthly draws idx r (n+1+1)
          ≤ remRaw profit_rate monthly draws idx r (n+1)
        simp only [remRaw]
        exact (ih (idx+1) _ h0' hP').2

lemma genPaymentsAux_rb (profit_rate monthly : ℚ) (disb now : ℤ) (draws : ℕ → PayDraw) :
    ∀ fuel idx (r : ℚ) b i p,
      (genPaymentsAux profit_rate monthly disb now draws fuel idx r b).get? i = some p →
      p.remaining_balance = round2 (remRaw profit_rate monthly draws idx r (i+1)) := by
  intro fuel
  induction fuel with
  | zero => intro idx r b i p h; simp [genPaymentsAux] at h
  | succ n ih =>
      intro idx r b i p h
      simp only [genPaymentsAux] at h
      split_ifs at h with hdate hb
      · simp at h
      · cases i with
        | zero =>
            rw [List.get?_cons_zero] at h
            injection h with h
            rw [← h]
            simp only [remRaw]
        | succ j =>
            rw [List.get?_cons_succ] at h
            simp at h
      · cases i with
        | zero =>
            rw [List.get?_cons_zero] at h
            injection h with h
            rw [← h]
            simp only [remRaw]
        | succ j =>
            rw [List.get?_cons_succ] at h
            have := ih _ _ _ _ _ h
            rw [this]
            congr 1

lemma genPaymentsAux_length (profit_rate monthly : ℚ) (disb now : ℤ) (draws : ℕ → PayDraw) :
    ∀ (fuel idx b : ℕ) (r : ℚ), fuel ≤ b →
      disb + 30 * ((idx : ℤ) + (fuel : ℤ)) ≤ now →
      (genPaymentsAux profit_rate monthly disb now draws fuel idx r b).length = fuel := by
  intro fuel
  induction fuel with
  | zero => intro idx b r _ _; simp [genPaymentsAux]
  | succ n ih =>
      intro idx b r hb hdate
      have hd : ¬ now < disb + 30 * ((idx : ℤ) + 1) := by push_cast at hdate ⊢; omega
      simp only [genPaymentsAux, if_neg hd, List.length_cons]
      split_ifs with hb1
      · have : n = 0 := by omega
        simp [this]
      · rw [ih (idx+1) (b-1) _ (by omega) (by push_cast at hdate ⊢; omega)]

/-! ## Distribution-loop lemmas -/

lemma genDistsAux_len90 (p now : ℤ) (inv rate : ℚ) (u : ℕ → ℚ) :
    ∀ (fuel q b : ℕ), ∀ d ∈ genDistsAux p now inv rate u fuel q b,
      d.period_end = d.period_start + 90 := by
  intro fuel
  induction fuel with
  | zero => intro q b d hd; simp [genDistsAux] at hd
  | succ n ih =>
      intro q b d hd
      simp only [genDistsAux] at hd
      split_ifs at hd with hdate hb
      · simp at hd
      · simp at hd
        rw [hd]
      · simp only [List.mem_cons] at hd
        rcases hd with hd | hd
        · rw [hd]
        · exact ih (q+1) (b-1) d hd

lemma genDistsAux_head (p now : ℤ) (inv rate : ℚ) (u : ℕ → ℚ) :
    ∀ (fuel q b : ℕ) d, (genDistsAux p now inv rate u fuel q b).head? = some d →
      d.period_start = p + 90 * (q : ℤ) := by
  intro fuel q b d hd
  cases fuel with
  | zero => simp [genDistsAux] at hd
  | succ n =>
      simp only [genDistsAux] at hd
      split_ifs at hd with hdate hb <;> simp at hd <;> rw [← hd]

lemma genDistsAux_chain (p now : ℤ) (inv rate : ℚ) (u : ℕ → ℚ) :
    ∀ (fuel q b : ℕ),
      List.Chain' (fun d e => e.period_start = d.period_end
          ∧ d.period_start < e.period_start ∧ d.period_end ≤ e.period_start)
        (genDistsAux p now inv rate u fuel q b) := by
  intro fuel
  induction fuel with
  | zero => intro q b; simp [genDistsAux]
  | succ n ih =>
      intro q b
      simp only [genDistsAux]
      split_ifs with hdate hb
      · simp
      · simp
      · rw [List.chain'_cons']
        refine ⟨?_, ih (q+1) (b-1)⟩
        intro e he
        have hs := genDistsAux_head p now inv rate u n (q+1) (b-1) e he
        refine ⟨?_, ?_, ?_⟩ <;> simp [hs] <;> push_cast <;> ring_nf <;> omega

lemma genDistsAux_length (p now : ℤ) (inv rate : ℚ) (u : ℕ → ℚ) :
    ∀ (fuel q b : ℕ), fuel ≤ b → p + 90 * ((q : ℤ) + (fuel : ℤ)) ≤ now →
      (genDistsAux p now inv rate u fuel q b).length = fuel := by
  intro fuel
  induction fuel with
  | zero => intro q b _ _; simp [genDistsAux]
  | succ n ih =>
      intro q b hb hdate
      have hd : ¬ now < p + 90 * (q : ℤ) + 90 := by push_cast at hdate ⊢; omega
      simp only [genDistsAux, if_neg hd, List.length_cons]
      split_ifs with hb1
      · have : n = 0 := by omega
        simp [this]
      · rw [ih (q+1) (b-1) (by omega) (by push_cast at hdate ⊢; omega)]

/-! ## Claim theorems -/

/-- C5: For every sampled purchase whose elapsed quarters compute to 10, the
distribution loop produces exactly 8 records (the 2-year horizon cap), never
10, provided the global distribution budget is not exhausted first. -/
theorem distribution_horizon_cap (purchase_date now : ℤ) (inv rate : ℚ) (u : ℕ → ℚ)
    (b : ℕ) (hq : quartersSince purchase_date now = 10) (hb : 8 ≤ b) :
    (genDists purchase_date now inv rate u b).length = 8
    ∧ (genDists purchase_date now inv rate u b).length ≠ 10 := by
  obtain ⟨h1, h2⟩ := quartersSince_eq_ten hq
  unfold genDists
  rw [hq]
  have hmin : ((min (10 : ℤ) 8).toNat) = 8 := by decide
  rw [hmin]
  have hlen := genDistsAux_length purchase_date now inv rate u 8 0 b hb (by push_cast; omega)
  exact ⟨hlen, by rw [hlen]; norm_num⟩

/-- C5 witness: a purchase made 905 days ago has 10 elapsed quarters and gets
exactly 8 distributions. -/
theorem distribution_horizon_cap_check :
    (genDists 0 905 0 0 (fun _ => 0) 8).length = 8
    ∧ (genDists 0 905 0 0 (fun _ => 0) 8).length ≠ 10 :=
  distribution_horizon_cap 0 905 0 0 (fun _ => 0) 8 (by decide) (by norm_num)

/-- C6 counterexample: with identical seed-derived draws, two runs whose
ambient current dates differ produce different loan rows, so a fixed seed alone
does not reproduce the dataset bit-for-bit. -/
theorem same_seed_different_now :
    loanStatusBalance 10000 0 360 720 (1/10) (1/2)
      ≠ loanStatusBalance 10000 0 360 180 (1/10) (1/2) := by
  simp only [loanStatusBalance]
  norm_num
  intro h
  exact LoanStatus.noConfusion h

/-- C6 amended: two runs with the same seed-derived draws, the same volume
parameters and the same ambient current date produce identical loan rows,
payment histories and distribution histories. -/
theorem generation_deterministic_given_draws_and_now
    (loan_amount disb maturity : ℤ) (dd rf pr : ℚ) (ddraw : ℤ)
    (draws₁ draws₂ : ℕ → PayDraw) (b : ℕ) (now₁ now₂ : ℤ)
    (pdate : ℤ) (inv rate : ℚ) (u₁ u₂ : ℕ → ℚ)
    (hdraws : draws₁ = draws₂) (hu : u₁ = u₂) (hnow : now₁ = now₂) :
    loanSlice loan_amount disb maturity dd rf pr ddraw draws₁ b now₁
      = loanSlice loan_amount disb maturity dd rf pr ddraw draws₂ b now₂
    ∧ genDists pdate now₁ inv rate u₁ b = genDists pdate now₂ inv rate u₂ b := by
  subst hdraws
  subst hu
  subst hnow
  exact ⟨rfl, rfl⟩

/-- C6 amended witness at concrete inputs. -/
theorem generation_deterministic_given_draws_and_now_check :
    loanSlice 10000 0 360 (1/10) (1/2) (1/10) 5 (fun _ => ⟨.OnTime, 0⟩) 20 400
      = loanSlice 10000 0 360 (1/10) (1/2) (1/10) 5 (fun _ => ⟨.OnTime, 0⟩) 20 400
    ∧ genDists 0 400 1000 (8/100) (fun _ => 1) 8
        = genDists 0 400 1000 (8/100) (fun _ => 1) 8 :=
  generation_deterministic_given_draws_and_now 10000 0 360 (1/10) (1/2) (1/10) 5
    (fun _ => ⟨.OnTime, 0⟩) (fun _ => ⟨.OnTime, 0⟩) 20 400 400 0 1000 (8/100)
    (fun _ => 1) (fun _ => 1) rfl rfl rfl

/-- C7 counterexample: the three credit-tier loan-amount ranges are not
pairwise disjoint — 150000 lies in both the top and middle tier ranges, 75000
in both the middle and bottom, and 100000 in both the top and bottom. -/
theorem loan_tier_ranges_overlap :
    ((loanAmountRange 750).1 ≤ 150000 ∧ 150000 ≤ (loanAmountRange 750).2
      ∧ (loanAmountRange 700).1 ≤ 150000 ∧ 150000 ≤ (loanAmountRange 700).2)
    ∧ ((loanAmountRange 700).1 ≤ 75000 ∧ 75000 ≤ (loanAmountRange 700).2
      ∧ (loanAmountRange 600).1 ≤ 75000 ∧ 75000 ≤ (loanAmountRange 600).2)
    ∧ ((loanAmountRange 750).1 ≤ 100000 ∧ 100000 ≤ (loanAmountRange 750).2
      ∧ (loanAmountRange 600).1 ≤ 100000 ∧ 100000 ≤ (loanAmountRange 600).2) := by
  decide

/-- C7 amended: the principal is drawn uniformly within the range of the
borrower's credit tier, and both the floor and the ceiling of the ranges are
strictly increasing with the tier, but the ranges overlap rather than being
disjoint. -/
theorem loan_amount_tiers (credit_score amount : ℤ)
    (h1 : (loanAmountRange credit_score).1 ≤ amount)
    (h2 : amount ≤ (loanAmountRange credit_score).2) :
    (750 ≤ credit_score → 100000 ≤ amount ∧ amount ≤ 500000)
    ∧ (650 ≤ credit_score → credit_score < 750 → 50000 ≤ amount ∧ amount ≤ 250000)
    ∧ (credit_score < 650 → 10000 ≤ amount ∧ amount ≤ 100000)
    ∧ (loanAmountRange 600).2 < (loanAmountRange 650).2
    ∧ (loanAmountRange 650).2 < (loanAmountRange 750).2
    ∧ (loanAmountRange 600).1 < (loanAmountRange 650).1
    ∧ (loanAmountRange 650).1 < (loanAmountRange 750).1 := by
  unfold loanAmountRange at h1 h2
  refine ⟨?_, ?_, ?_, by decide, by decide, by decide, by decide⟩ <;>
    (split_ifs at h1 h2 <;> dsimp only at h1 h2 <;> omega)

/-- C7 amended witness at a concrete tier and draw. -/
theorem loan_amount_tiers_check :
    (750 ≤ (800 : ℤ) → 100000 ≤ (200000 : ℤ) ∧ (200000 : ℤ) ≤ 500000)
    ∧ (650 ≤ (800 : ℤ) → (800 : ℤ) < 750 → 50000 ≤ (200000 : ℤ) ∧ (200000 : ℤ) ≤ 250000)
    ∧ ((800 : ℤ) < 650 → 10000 ≤ (200000 : ℤ) ∧ (200000 : ℤ) ≤ 100000)
    ∧ (loanAmountRange 600).2 < (loanAmountRange 650).2
    ∧ (loanAmountRange 650).2 < (loanAmountRange 750).2
    ∧ (loanAmountRange 600).1 < (loanAmountRange 650).1
    ∧ (loanAmountRange 650).1 < (loanAmountRange 750).1 :=
  loan_amount_tiers 800 200000 (by decide) (by decide)

/-- C9 counterexample: for an instrument with minimum subscription unit 5000
and a purchase of amount 5000, the generator records 5 units, not the 1 unit
that amount divided by the instrument's unit size would give. -/
theorem units_fixed_thousand :
    (mkPurchase 5000 5000).units = 5 ∧ ((5000 : ℚ) / 5000) = 1
      ∧ (mkPurchase 5000 5000).units ≠ (5000 : ℚ) / 5000 := by
  refine ⟨?_, ?_, ?_⟩ <;> norm_num [mkPurchase]

/-- C9 amended: the unit count of every generated purchase equals the purchase
amount divided by the fixed unit size 1000, independent of the instrument's
minimum subscription unit. -/
theorem units_are_amount_over_thousand (minimum_investment amount : ℤ) :
    (mkPurchase minimum_investment amount).units * 1000 = (amount : ℚ)
    ∧ (mkPurchase minimum_investment amount).units = (mkPurchase 1000 amount).units := by
  constructor
  · simp only [mkPurchase]
    exact div_mul_cancel₀ _ (by norm_num)
  · rfl

/-- C9 amended witness at a concrete purchase. -/
theorem units_are_amount_over_thousand_check :
    (mkPurchase 5000 7000).units * 1000 = ((7000 : ℤ) : ℚ) :=
  (units_are_amount_over_thousand 5000 7000).1

/-- C10: In every status branch the realized payment amount equals the realized
principal portion plus the realized profit portion, before the 2-decimal
rounding of the stored fields. -/
theorem payment_split_adds_up (profit_rate monthly remaining : ℚ) (d : PayDraw)
    (hm : monthly ≠ 0) :
    (actualTriple profit_rate monthly remaining d).1
      = (actualTriple profit_rate monthly remaining d).2.1
        + (actualTriple profit_rate monthly remaining d).2.2 := by
  rcases d with ⟨st, u⟩
  cases st with
  | OnTime => simp only [actualTriple]; ring
  | Late =>
      simp only [actualTriple]
      field_simp
      ring
  | Missed => simp [actualTriple]

/-- C10 witness: a concrete Late payment splits exactly. -/
theorem payment_split_adds_up_check :
    (1 : ℚ) ≠ 0
    ∧ (actualTriple (1/10) 1 50 ⟨.Late, 1/2⟩).1
        = (actualTriple (1/10) 1 50 ⟨.Late, 1/2⟩).2.1
          + (actualTriple (1/10) 1 50 ⟨.Late, 1/2⟩).2.2 :=
  ⟨by norm_num, payment_split_adds_up (1/10) 1 50 ⟨.Late, 1/2⟩ (by norm_num)⟩

/-- C3 counterexample: for a Defaulted loan with a 36-period term the code
draws the realized payment count from randint(int(36*0.3), int(36*0.7)) =
randint(10, 25), so the upper bound is 25, not 26, and a count of 26 can never
be drawn. -/
theorem defaulted_draw_bounds_for_36 :
    defaultedCountBounds 36 = (10, 25) ∧ defaultedCountBounds 36 ≠ (10, 26) := by
  decide

/-- C3 amended: for every Defaulted loan with a 36-period term, the drawn
payment count lies between 10 and 25 inclusive, and when neither the future
date cutoff nor the global payment budget intervenes, exactly that many
payments are generated. -/
theorem defaulted_payment_count_36 (profit_rate monthly P : ℚ) (disb now : ℤ)
    (draws : ℕ → PayDraw) (d b : ℕ)
    (hlo : (defaultedCountBounds 36).1 ≤ (d : ℤ))
    (hhi : (d : ℤ) ≤ (defaultedCountBounds 36).2)
    (hb : d ≤ b)
    (hnow : disb + 30 * (d : ℤ) ≤ now) :
    (genPaymentsAux profit_rate monthly disb now draws
        ((numLoanPayments .Defaulted 36 (d : ℤ) now disb).toNat) 0 P b).length = d
    ∧ 10 ≤ d ∧ d ≤ 25 := by
  have hbounds : defaultedCountBounds 36 = (10, 25) := by decide
  rw [hbounds] at hlo hhi
  dsimp only at hlo hhi
  have hnl : (numLoanPayments .Defaulted 36 (d : ℤ) now disb).toNat = d := by
    simp [numLoanPayments]
  rw [hnl]
  refine ⟨?_, by omega, by omega⟩
  exact genPaymentsAux_length profit_rate monthly disb now draws d 0 b P hb (by omega)

/-- C3 amended witness: a defaulted 36-period loan whose drawn count is 12,
all of whose payment dates are in the past, yields exactly 12 payments. -/
theorem defaulted_payment_count_36_check :
    (genPaymentsAux 0 0 0 1000 (fun _ => ⟨.Missed, 0⟩)
        ((numLoanPayments .Defaulted 36 ((12 : ℕ) : ℤ) 1000 0).toNat) 0 0 40).length = 12
    ∧ 10 ≤ 12 ∧ 12 ≤ 25 :=
  defaulted_payment_count_36 0 0 0 0 1000 (fun _ => ⟨.Missed, 0⟩) 12 40
    (by decide) (by decide) (by norm_num) (by norm_num)

/-- C8: the per-period installment divides by a period count floored at 1, the
installment itself is positive (so the Late-branch divisions by it are
defined), and the Active-branch amortization ratio is guarded by
total_days > 0, the balance falling back to the full principal otherwise. -/
theorem no_zero_denominator_guards
    (total_days : ℤ) (P profit_rate : ℚ) (loan_amount disb maturity now : ℤ)
    (dd rf : ℚ)
    (hP : 0 < P) (hr : 0 ≤ profit_rate)
    (hdd : ¬ dd < 1/20) (hmat : ¬ maturity < now) (hdeg : maturity - disb ≤ 0) :
    1 ≤ monthsOf total_days
    ∧ ((monthsOf total_days : ℤ) : ℚ) ≠ 0
    ∧ 0 < monthlyPayment P profit_rate (monthsOf total_days)
    ∧ loanStatusBalance loan_amount disb maturity now dd rf
        = (.Active, (loan_amount : ℚ)) := by
  have h1 := one_le_monthsOf total_days
  have h1q : (1 : ℚ) ≤ ((monthsOf total_days : ℤ) : ℚ) := by exact_mod_cast h1
  refine ⟨h1, by linarith, ?_, ?_⟩
  · unfold monthlyPayment
    apply div_pos
    · have : 0 ≤ P * profit_rate * (((monthsOf total_days : ℤ) : ℚ) / 12) := by positivity
      linarith
    · linarith
  · simp only [loanStatusBalance]
    rw [if_neg hdd, if_neg hmat, if_neg (show ¬ (0 : ℤ) < maturity - disb by omega)]
    rw [round2_intCast]

/-- C8 witness: a degenerate zero-length term still yields period count 1, a
positive installment and the full principal as the Active fallback balance. -/
theorem no_zero_denominator_guards_check :
    1 ≤ monthsOf 0
    ∧ ((monthsOf 0 : ℤ) : ℚ) ≠ 0
    ∧ 0 < monthlyPayment 1 0 (monthsOf 0)
    ∧ loanStatusBalance 10000 0 0 0 (1/10) (1/2)
        = (.Active, ((10000 : ℤ) : ℚ)) :=
  no_zero_denominator_guards 0 1 0 10000 0 0 0 (1/10) (1/2)
    (by norm_num) (by norm_num) (by norm_num) (by norm_num) (by norm_num)

/-- C4: for every purchase with at least one generated distribution, the
period windows are each exactly 90 days long, chronologically ordered,
non-overlapping and contiguous, and the first window starts exactly at the
purchase date. -/
theorem distribution_windows (purchase_date now : ℤ) (inv rate : ℚ) (u : ℕ → ℚ) (b : ℕ)
    (h : genDists purchase_date now inv rate u b ≠ []) :
    (∀ d ∈ genDists purchase_date now inv rate u b, d.period_end = d.period_start + 90)
    ∧ List.Chain' (fun d e => e.period_start = d.period_end
        ∧ d.period_start < e.period_start ∧ d.period_end ≤ e.period_start)
      (genDists purchase_date now inv rate u b)
    ∧ ∃ d0, (genDists purchase_date now inv rate u b).head? = some d0
        ∧ d0.period_start = purchase_date := by
  refine ⟨?_, ?_, ?_⟩
  · exact fun d hd => genDistsAux_len90 purchase_date now inv rate u _ 0 b d hd
  · exact genDistsAux_chain purchase_date now inv rate u _ 0 b
  · have hh := List.head?_eq_head h
    refine ⟨_, hh, ?_⟩
    have := genDistsAux_head purchase_date now inv rate u _ 0 b _ hh
    simpa using this

/-- C4 witness: a purchase 90 days in the past with budget 1 yields a
nonempty distribution list satisfying the window invariants. -/
theorem distribution_windows_check :
    (∀ d ∈ genDists 0 90 0 0 (fun _ => 0) 1, d.period_end = d.period_start + 90)
    ∧ List.Chain' (fun d e => e.period_start = d.period_end
        ∧ d.period_start < e.period_start ∧ d.period_end ≤ e.period_start)
      (genDists 0 90 0 0 (fun _ => 0) 1)
    ∧ ∃ d0, (genDists 0 90 0 0 (fun _ => 0) 1).head? = some d0
        ∧ d0.period_start = 0 := by
  have hne : genDists 0 90 0 0 (fun _ => 0) 1 ≠ [] := by
    have hq : (min (quartersSince 0 90) 8).toNat = 1 := by decide
    have hlen := genDistsAux_length 0 90 0 0 (fun _ => 0) 1 0 1 (le_refl 1) (by norm_num)
    unfold genDists
    rw [hq]
    exact List.ne_nil_of_length_pos (by rw [hlen]; norm_num)
  exact distribution_windows 0 90 0 0 (fun _ => 0) 1 hne

/-- C1: loan status and stored outstanding balance are resolved in priority
order — a default draw below 0.05 gives Defaulted with balance
principal * Uniform(0.3, 0.9); otherwise a past maturity gives Paid Off with
balance 0; otherwise Active with the linear amortization proxy
principal * (1 - min(elapsed/term, 1) * 0.7), which stays within
[0, principal]; consequently Paid Off implies balance 0 and Defaulted implies
a balance strictly between 0 and the principal. -/
theorem loan_status_balance_resolution
    (loan_amount months disb maturity now : ℤ) (defaultDraw recoveryFrac : ℚ)
    (hP : 10000 ≤ loan_amount)
    (hm1 : 12 ≤ months) (hm2 : months ≤ 60)
    (hmat : maturity = disb + 30 * months)
    (hnow : disb ≤ now)
    (hr1 : 3/10 ≤ recoveryFrac) (hr2 : recoveryFrac ≤ 9/10) :
    (defaultDraw < 1/20 →
      loanStatusBalance loan_amount disb maturity now defaultDraw recoveryFrac
        = (.Defaulted, round2 ((loan_amount : ℚ) * recoveryFrac)))
    ∧ (¬ defaultDraw < 1/20 → maturity < now →
      loanStatusBalance loan_amount disb maturity now defaultDraw recoveryFrac
        = (.PaidOff, 0))
    ∧ (¬ defaultDraw < 1/20 → ¬ maturity < now →
      loanStatusBalance loan_amount disb maturity now defaultDraw recoveryFrac
        = (.Active, round2 ((loan_amount : ℚ)
            * (1 - min (((now - disb : ℤ) : ℚ) / ((maturity - disb : ℤ) : ℚ)) 1 * (7/10))))
      ∧ 0 ≤ (loanStatusBalance loan_amount disb maturity now defaultDraw recoveryFrac).2
      ∧ (loanStatusBalance loan_amount disb maturity now defaultDraw recoveryFrac).2
          ≤ (loan_amount : ℚ))
    ∧ ((loanStatusBalance loan_amount disb maturity now defaultDraw recoveryFrac).1
        = .PaidOff →
      (loanStatusBalance loan_amount disb maturity now defaultDraw recoveryFrac).2 = 0)
    ∧ ((loanStatusBalance loan_amount disb maturity now defaultDraw recoveryFrac).1
        = .Defaulted →
      0 < (loanStatusBalance loan_amount disb maturity now defaultDraw recoveryFrac).2
      ∧ (loanStatusBalance loan_amount disb maturity now defaultDraw recoveryFrac).2
          < (loan_amount : ℚ)) := by
  subst hmat
  have hLq : (10000 : ℚ) ≤ (loan_amount : ℚ) := by exact_mod_cast hP
  have hL0 : (0 : ℚ) ≤ (loan_amount : ℚ) := by linarith
  have hDlow : 0 < round2 ((loan_amount : ℚ) * recoveryFrac) := by
    have h1 : (loan_amount : ℚ) * (3/10) ≤ (loan_amount : ℚ) * recoveryFrac :=
      mul_le_mul_of_nonneg_left hr1 hL0
    have h2 := le_round2 ((loan_amount : ℚ) * recoveryFrac)
    linarith
  have hDhigh : round2 ((loan_amount : ℚ) * recoveryFrac) < (loan_amount : ℚ) := by
    have h1 : (loan_amount : ℚ) * recoveryFrac ≤ (loan_amount : ℚ) * (9/10) :=
      mul_le_mul_of_nonneg_left hr2 hL0
    have h2 := round2_le ((loan_amount : ℚ) * recoveryFrac)
    linarith
  by_cases hdd : defaultDraw < 1/20
  · have heq : loanStatusBalance loan_amount disb (disb + 30 * months) now
        defaultDraw recoveryFrac
        = (.Defaulted, round2 ((loan_amount : ℚ) * recoveryFrac)) := by
      simp only [loanStatusBalance, if_pos hdd]
    refine ⟨fun _ => heq, fun h => absurd hdd h, fun h => absurd hdd h, ?_, ?_⟩
    · simp [heq]
    · rw [heq]
      exact fun _ => ⟨hDlow, hDhigh⟩
  · by_cases hmt : disb + 30 * months < now
    · have heq : loanStatusBalance loan_amount disb (disb + 30 * months) now
          defaultDraw recoveryFrac = (.PaidOff, 0) := by
        simp only [loanStatusBalance, if_neg hdd, if_pos hmt, round2_zero]
      refine ⟨fun h => absurd h hdd, fun _ _ => heq, fun _ h => absurd hmt h, ?_, ?_⟩
      · simp [heq]
      · simp [heq]
    · have ht0 : (0 : ℤ) < disb + 30 * months - disb := by omega
      have heq : loanStatusBalance loan_amount disb (disb + 30 * months) now
          defaultDraw recoveryFrac
          = (.Active, round2 ((loan_amount : ℚ)
              * (1 - min (((now - disb : ℤ) : ℚ)
                  / ((disb + 30 * months - disb : ℤ) : ℚ)) 1 * (7/10)))) := by
        simp only [loanStatusBalance, if_neg hdd, if_neg hmt, if_pos ht0]
      have htq : (0 : ℚ) < ((disb + 30 * months - disb : ℤ) : ℚ) := by exact_mod_cast ht0
      have he0 : (0 : ℚ) ≤ ((now - disb : ℤ) : ℚ) := by
        have : (0 : ℤ) ≤ now - disb := by omega
        exact_mod_cast this
      have hp0 : 0 ≤ min (((now - disb : ℤ) : ℚ)
          / ((disb + 30 * months - disb : ℤ) : ℚ)) 1 :=
        le_min (div_nonneg he0 htq.le) zero_le_one
      have hp1 : min (((now - disb : ℤ) : ℚ)
          / ((disb + 30 * months - disb : ℤ) : ℚ)) 1 ≤ 1 := min_le_right _ _
      have hx0 : (loan_amount : ℚ) * (3/10) ≤ (loan_amount : ℚ)
          * (1 - min (((now - disb : ℤ) : ℚ)
              / ((disb + 30 * months - disb : ℤ) : ℚ)) 1 * (7/10)) :=
        mul_le_mul_of_nonneg_left (by linarith) hL0
      have hb0 : 0 ≤ round2 ((loan_amount : ℚ)
          * (1 - min (((now - disb : ℤ) : ℚ)
              / ((disb + 30 * months - disb : ℤ) : ℚ)) 1 * (7/10))) :=
        round2_nonneg (by linarith)
      have hble : round2 ((loan_amount : ℚ)
          * (1 - min (((now - disb : ℤ) : ℚ)
              / ((disb + 30 * months - disb : ℤ) : ℚ)) 1 * (7/10)))
          ≤ (loan_amount : ℚ) := by
        rcases eq_or_lt_of_le hnow with heqn | hltn
        · have hz : ((now - disb : ℤ) : ℚ) = 0 := by
            rw [← heqn]
            norm_num
          rw [hz, zero_div]
          have hmin0 : min (0 : ℚ) 1 = 0 := by norm_num
          rw [hmin0]
          norm_num
          rw [round2_intCast]
        · have he1 : (1 : ℚ) ≤ ((now - disb : ℤ) : ℚ) := by
            have : (1 : ℤ) ≤ now - disb := by omega
            exact_mod_cast this
          have ht1800 : ((disb + 30 * months - disb : ℤ) : ℚ) ≤ 1800 := by
            have : (disb + 30 * months - disb : ℤ) ≤ 1800 := by omega
            exact_mod_cast this
          have h1t : (1 : ℚ) / 1800
              ≤ 1 / ((disb + 30 * months - disb : ℤ) : ℚ) :=
            one_div_le_one_div_of_le htq ht1800
          have het : (1 : ℚ) / ((disb + 30 * months - disb : ℤ) : ℚ)
              ≤ ((now - disb : ℤ) : ℚ) / ((disb + 30 * months - disb : ℤ) : ℚ) :=
            (div_le_div_iff_of_pos_right htq).mpr he1
          have hpge : (1 : ℚ) / 1800 ≤ min (((now - disb : ℤ) : ℚ)
              / ((disb + 30 * months - disb : ℤ) : ℚ)) 1 :=
            le_min (by linarith) (by norm_num)
          have hxs : (loan_amount : ℚ)
              * (1 - min (((now - disb : ℤ) : ℚ)
                  / ((disb + 30 * months - disb : ℤ) : ℚ)) 1 * (7/10))
              ≤ (loan_amount : ℚ) * (1 - 7/18000) :=
            mul_le_mul_of_nonneg_left (by linarith) hL0
          have hrle := round2_le ((loan_amount : ℚ)
              * (1 - min (((now - disb : ℤ) : ℚ)
                  / ((disb + 30 * months - disb : ℤ) : ℚ)) 1 * (7/10)))
          nlinarith
      refine ⟨fun h => absurd h hdd, fun _ h => absurd h hmt,
        fun _ _ => ⟨heq, by rw [heq]; exact hb0, by rw [heq]; exact hble⟩, ?_, ?_⟩
      · simp [heq]
      · simp [heq]

/-- C1 witness: a concrete loan with principal 10000, a 12-month term
disbursed today, a non-default draw and recovery fraction one half. -/
theorem loan_status_balance_resolution_check :
    ((1 : ℚ)/10 < 1/20 →
      loanStatusBalance 10000 0 360 0 (1/10) (1/2)
        = (.Defaulted, round2 (((10000 : ℤ) : ℚ) * (1/2))))
    ∧ (¬ (1 : ℚ)/10 < 1/20 → (360 : ℤ) < 0 →
      loanStatusBalance 10000 0 360 0 (1/10) (1/2) = (.PaidOff, 0))
    ∧ (¬ (1 : ℚ)/10 < 1/20 → ¬ (360 : ℤ) < 0 →
      loanStatusBalance 10000 0 360 0 (1/10) (1/2)
        = (.Active, round2 (((10000 : ℤ) : ℚ)
            * (1 - min ((((0 : ℤ) - 0 : ℤ) : ℚ) / (((360 : ℤ) - 0 : ℤ) : ℚ)) 1 * (7/10))))
      ∧ 0 ≤ (loanStatusBalance 10000 0 360 0 (1/10) (1/2)).2
      ∧ (loanStatusBalance 10000 0 360 0 (1/10) (1/2)).2 ≤ ((10000 : ℤ) : ℚ))
    ∧ ((loanStatusBalance 10000 0 360 0 (1/10) (1/2)).1 = .PaidOff →
      (loanStatusBalance 10000 0 360 0 (1/10) (1/2)).2 = 0)
    ∧ ((loanStatusBalance 10000 0 360 0 (1/10) (1/2)).1 = .Defaulted →
      0 < (loanStatusBalance 10000 0 360 0 (1/10) (1/2)).2
      ∧ (loanStatusBalance 10000 0 360 0 (1/10) (1/2)).2 < ((10000 : ℤ) : ℚ)) :=
  loan_status_balance_resolution 10000 12 0 360 0 (1/10) (1/2)
    (by norm_num) (by norm_num) (by norm_num) (by norm_num) (by norm_num)
    (by norm_num) (by norm_num)

/-- C2: for every loan, the raw running remaining balance starts at the
principal, stays nonnegative (floored at zero) and is non-increasing; the
realized principal subtracted at each step is zero for Missed payments, the
scheduled principal portion for On Time payments and the drawn fraction of the
scheduled principal portion for Late payments; the 2-decimal rounding of the
running value is stored as each payment row's remaining-balance field, and the
stored sequence is non-increasing across consecutive payments. -/
theorem payment_running_balance
    (P profit_rate monthly : ℚ) (months : ℤ) (disb now : ℤ)
    (draws : ℕ → PayDraw) (fuel b : ℕ)
    (hm : 1 ≤ months) (hP : 0 < P) (hr : 0 ≤ profit_rate)
    (hmonthly : monthly = monthlyPayment P profit_rate months)
    (hdraws : ∀ i, (draws i).status = .Late →
        1/2 ≤ (draws i).lateFrac ∧ (draws i).lateFrac ≤ 9/10) :
    remRaw profit_rate monthly draws 0 P 0 = P
    ∧ (∀ i, 0 ≤ remRaw profit_rate monthly draws 0 P i)
    ∧ (∀ i, remRaw profit_rate monthly draws 0 P (i+1)
        ≤ remRaw profit_rate monthly draws 0 P i)
    ∧ (∀ i r, 0 ≤ r →
        ((draws i).status = .Missed →
          (actualTriple profit_rate monthly r (draws i)).2.1 = 0)
        ∧ ((draws i).status = .OnTime →
          (actualTriple profit_rate monthly r (draws i)).2.1
            = monthly - r * (profit_rate / 12))
        ∧ ((draws i).status = .Late →
          (actualTriple profit_rate monthly r (draws i)).2.1
            = (draws i).lateFrac * (monthly - r * (profit_rate / 12))))
    ∧ (∀ i p, (genPaymentsAux profit_rate monthly disb now draws fuel 0 P b).get? i
          = some p →
        p.remaining_balance = round2 (remRaw profit_rate monthly draws 0 P (i+1)))
    ∧ (∀ i p q,
        (genPaymentsAux profit_rate monthly disb now draws fuel 0 P b).get? i = some p →
        (genPaymentsAux profit_rate monthly disb now draws fuel 0 P b).get? (i+1) = some q →
        q.remaining_balance ≤ p.remaining_balance) := by
  have hmq : (1 : ℚ) ≤ ((months : ℤ) : ℚ) := by exact_mod_cast hm
  have htm : (0 : ℚ) < ((months : ℤ) : ℚ) := by linarith
  have hm0 : 0 < monthly := by
    rw [hmonthly]
    unfold monthlyPayment
    apply div_pos ?_ htm
    have : 0 ≤ P * profit_rate * (((months : ℤ) : ℚ) / 12) := by positivity
    linarith
  have hPP : P * (profit_rate / 12) ≤ monthly := by
    rw [hmonthly]
    unfold monthlyPayment
    rw [le_div_iff₀ htm]
    have hre : P * (profit_rate / 12) * ((months : ℤ) : ℚ)
        = P * profit_rate * (((months : ℤ) : ℚ) / 12) := by ring
    rw [hre]
    linarith
  have hu0 : ∀ i, (draws i).status = .Late → 0 ≤ (draws i).lateFrac := by
    intro i hL
    have := (hdraws i hL).1
    linarith
  have hbd := remRaw_bounds profit_rate monthly P draws hr hm0.le hPP hu0
  refine ⟨rfl, ?_, ?_, ?_, ?_, ?_⟩
  · exact fun i => ((hbd i 0 P hP.le le_rfl).1).1
  · exact fun i => (hbd i 0 P hP.le le_rfl).2
  · intro i r _
    rcases hd : draws i with ⟨st, u⟩
    cases st with
    | OnTime => exact ⟨by simp, fun _ => by simp [actualTriple], by simp⟩
    | Late =>
        refine ⟨by simp, by simp, fun _ => ?_⟩
        simp only [actualTriple]
        field_simp
        ring
    | Missed => exact ⟨fun _ => by simp [actualTriple], by simp, by simp⟩
  · exact fun i p hp => genPaymentsAux_rb profit_rate monthly disb now draws fuel 0 P b i p hp
  · intro i p q hp hq
    rw [genPaymentsAux_rb profit_rate monthly disb now draws fuel 0 P b i p hp,
      genPaymentsAux_rb profit_rate monthly disb now draws fuel 0 P b (i+1) q hq]
    exact round2_mono ((hbd (i+1) 0 P hP.le le_rfl).2)

/-- C2 witness: a loan of principal 1200 at zero profit rate over 12 periods
with all payments On Time. -/
theorem payment_running_balance_check :
    remRaw 0 (monthlyPayment 1200 0 12) (fun _ : ℕ => (⟨.OnTime, 1/2⟩ : PayDraw)) 0 1200 0 = 1200
    ∧ (∀ i, 0 ≤ remRaw 0 (monthlyPayment 1200 0 12) (fun _ : ℕ => (⟨.OnTime, 1/2⟩ : PayDraw)) 0 1200 i)
    ∧ (∀ i, remRaw 0 (monthlyPayment 1200 0 12) (fun _ : ℕ => (⟨.OnTime, 1/2⟩ : PayDraw)) 0 1200 (i+1)
        ≤ remRaw 0 (monthlyPayment 1200 0 12) (fun _ : ℕ => (⟨.OnTime, 1/2⟩ : PayDraw)) 0 1200 i)
    ∧ (∀ i r, 0 ≤ r →
        (((fun _ : ℕ => (⟨.OnTime, 1/2⟩ : PayDraw)) i).status = .Missed →
          (actualTriple 0 (monthlyPayment 1200 0 12) r
              ((fun _ : ℕ => (⟨.OnTime, 1/2⟩ : PayDraw)) i)).2.1 = 0)
        ∧ (((fun _ : ℕ => (⟨.OnTime, 1/2⟩ : PayDraw)) i).status = .OnTime →
          (actualTriple 0 (monthlyPayment 1200 0 12) r
              ((fun _ : ℕ => (⟨.OnTime, 1/2⟩ : PayDraw)) i)).2.1
            = monthlyPayment 1200 0 12 - r * (0 / 12))
        ∧ (((fun _ : ℕ => (⟨.OnTime, 1/2⟩ : PayDraw)) i).status = .Late →
          (actualTriple 0 (monthlyPayment 1200 0 12) r
              ((fun _ : ℕ => (⟨.OnTime, 1/2⟩ : PayDraw)) i)).2.1
            = ((fun _ : ℕ => (⟨.OnTime, 1/2⟩ : PayDraw)) i).lateFrac
                * (monthlyPayment 1200 0 12 - r * (0 / 12))))
    ∧ (∀ i p, (genPaymentsAux 0 (monthlyPayment 1200 0 12) 0 400
          (fun _ : ℕ => (⟨.OnTime, 1/2⟩ : PayDraw)) 12 0 1200 20).get? i = some p →
        p.remaining_balance
          = round2 (remRaw 0 (monthlyPayment 1200 0 12)
              (fun _ : ℕ => (⟨.OnTime, 1/2⟩ : PayDraw)) 0 1200 (i+1)))
    ∧ (∀ i p q,
        (genPaymentsAux 0 (monthlyPayment 1200 0 12) 0 400
          (fun _ : ℕ => (⟨.OnTime, 1/2⟩ : PayDraw)) 12 0 1200 20).get? i = some p →
        (genPaymentsAux 0 (monthlyPayment 1200 0 12) 0 400
          (fun _ : ℕ => (⟨.OnTime, 1/2⟩ : PayDraw)) 12 0 1200 20).get? (i+1) = some q →
        q.remaining_balance ≤ p.remaining_balance) :=
  payment_running_balance 1200 0 (monthlyPayment 1200 0 12) 12 0 400
    (fun _ : ℕ => (⟨.OnTime, 1/2⟩ : PayDraw)) 12 20
    (by norm_num) (by norm_num) (by norm_num) rfl
    (fun i h => PayStatus.noConfusion h)

end IslamicFinance

